import Mathlib

/-!
Shallow embedding of the streaming analysis pipeline of
`src/backend/app/analyzer.py` (class `CodeForgeAnalyzer`), together with the
cache-key derivation (`hashlib.sha256` over the UTF-8 description).

Machine words are modelled as `Nat` reduced modulo `2 ^ 32`; byte strings as
`List Nat` of values below 256.
-/

namespace CodeForge

/-! ### SHA-256 (the `hashlib.sha256(...).hexdigest()` call in `_generate_cache_key`) -/

def w32 (n : Nat) : Nat := n % 4294967296

def rotr32 (k x : Nat) : Nat := w32 ((x >>> k) ||| (x <<< (32 - k)))

def bigSigma0 (x : Nat) : Nat := rotr32 2 x ^^^ rotr32 13 x ^^^ rotr32 22 x

def bigSigma1 (x : Nat) : Nat := rotr32 6 x ^^^ rotr32 11 x ^^^ rotr32 25 x

def smallSigma0 (x : Nat) : Nat := rotr32 7 x ^^^ rotr32 18 x ^^^ (x >>> 3)

def smallSigma1 (x : Nat) : Nat := rotr32 17 x ^^^ rotr32 19 x ^^^ (x >>> 10)

def ch32 (x y z : Nat) : Nat := (x &&& y) ^^^ ((4294967295 ^^^ x) &&& z)

def maj32 (x y z : Nat) : Nat := (x &&& y) ^^^ (x &&& z) ^^^ (y &&& z)

def sha256K : List Nat :=
  [1116352408, 1899447441, 3049323471, 3921009573, 961987163, 1508970993, 2453635748,
   2870763221, 3624381080, 310598401, 607225278, 1426881987, 1925078388, 2162078206,
   2614888103, 3248222580, 3835390401, 4022224774, 264347078, 604807628, 770255983,
   1249150122, 1555081692, 1996064986, 2554220882, 2821834349, 2952996808, 3210313671,
   3336571891, 3584528711, 113926993, 338241895, 666307205, 773529912, 1294757372, 1396182291,
   1695183700, 1986661051, 2177026350, 2456956037, 2730485921, 2820302411, 3259730800,
   3345764771, 3516065817, 3600352804, 4094571909, 275423344, 430227734, 506948616, 659060556,
   883997877, 958139571, 1322822218, 1537002063, 1747873779, 1955562222, 2024104815,
   2227730452, 2361852424, 2428436474, 2756734187, 3204031479, 3329325298]

structure Hash8 where
  a : Nat
  b : Nat
  c : Nat
  d : Nat
  e : Nat
  f : Nat
  g : Nat
  h : Nat
deriving DecidableEq, Repr

def sha256Init : Hash8 :=
  ⟨1779033703, 3144134277, 1013904242, 2773480762, 1359893119, 2600822924, 528734635,
   1541459225⟩

/-- One step of the message-schedule extension. -/
def schedStep (w : List Nat) : List Nat :=
  let n := w.length
  w ++ [w32 (smallSigma1 (w.getD (n - 2) 0) + w.getD (n - 7) 0 +
             smallSigma0 (w.getD (n - 15) 0) + w.getD (n - 16) 0)]

def buildSched (w : List Nat) : Nat → List Nat
  | 0 => w
  | k + 1 => buildSched (schedStep w) k

def roundFn (s : Hash8) (k : Nat) (w : Nat) : Hash8 :=
  let t1 := w32 (s.h + bigSigma1 s.e + ch32 s.e s.f s.g + k + w)
  let t2 := w32 (bigSigma0 s.a + maj32 s.a s.b s.c)
  ⟨w32 (t1 + t2), s.a, s.b, s.c, w32 (s.d + t1), s.e, s.f, s.g⟩

def compressBlock (s : Hash8) (block : List Nat) : Hash8 :=
  let w := buildSched block 48
  let t := (sha256K.zip w).foldl (fun st p => roundFn st p.1 p.2) s
  ⟨w32 (s.a + t.a), w32 (s.b + t.b), w32 (s.c + t.c), w32 (s.d + t.d),
   w32 (s.e + t.e), w32 (s.f + t.f), w32 (s.g + t.g), w32 (s.h + t.h)⟩

/-- Group a byte list into 16 big-endian 32-bit words (one 64-byte block). -/
def bytesToWords : List Nat → List Nat
  | b0 :: b1 :: b2 :: b3 :: rest =>
      (((b0 * 256 + b1) * 256 + b2) * 256 + b3) :: bytesToWords rest
  | _ => []

/-- The 8-byte big-endian encoding of the bit length. -/
def lenBytes (n : Nat) : List Nat :=
  [n / 2 ^ 56 % 256, n / 2 ^ 48 % 256, n / 2 ^ 40 % 256, n / 2 ^ 32 % 256,
   n / 2 ^ 24 % 256, n / 2 ^ 16 % 256, n / 2 ^ 8 % 256, n % 256]

/-- SHA-256 padding: append 0x80, zero bytes, then the 64-bit message bit length. -/
def padMessage (msg : List Nat) : List Nat :=
  msg ++ 128 :: List.replicate ((64 - (msg.length + 9) % 64) % 64) 0 ++
    lenBytes (8 * msg.length)

def chunksGo : Nat → List Nat → List (List Nat)
  | 0, _ => []
  | fuel + 1, l => if l = [] then [] else l.take 64 :: chunksGo fuel (l.drop 64)

/-- Split into 64-byte blocks; the fuel `l.length` is enough for every block. -/
def chunks64 (l : List Nat) : List (List Nat) := chunksGo l.length l

def sha256 (msg : List Nat) : Hash8 :=
  ((chunks64 (padMessage msg)).map bytesToWords).foldl compressBlock sha256Init

def hexChar (n : Nat) : Char :=
  if n < 10 then Char.ofNat (48 + n) else Char.ofNat (87 + n)

def wordHex (w : Nat) : List Char :=
  [hexChar (w / 16 ^ 7 % 16), hexChar (w / 16 ^ 6 % 16), hexChar (w / 16 ^ 5 % 16),
   hexChar (w / 16 ^ 4 % 16), hexChar (w / 16 ^ 3 % 16), hexChar (w / 16 ^ 2 % 16),
   hexChar (w / 16 % 16), hexChar (w % 16)]

/-- The lowercase hex digest of a SHA-256 state, as `hexdigest()` yields it. -/
def hexDigest (s : Hash8) : List Char :=
  wordHex s.a ++ wordHex s.b ++ wordHex s.c ++ wordHex s.d ++
  wordHex s.e ++ wordHex s.f ++ wordHex s.g ++ wordHex s.h

/-- UTF-8 encoding of one unicode scalar value, as `str.encode()` produces. -/
def utf8Char (c : Char) : List Nat :=
  let n := c.toNat
  if n < 128 then [n]
  else if n < 2048 then [192 + n / 64, 128 + n % 64]
  else if n < 65536 then [224 + n / 4096, 128 + n / 64 % 64, 128 + n % 64]
  else [240 + n / 262144, 128 + n / 4096 % 64, 128 + n / 64 % 64, 128 + n % 64]

def utf8Encode (s : String) : List Nat := (s.data.map utf8Char).flatten

/-- `CodeForgeAnalyzer._generate_cache_key`:
`"analysis:" + sha256(description.encode()).hexdigest()[:16]`. -/
def generate_cache_key (d : String) : String :=
  "analysis:" ++ String.mk ((hexDigest (sha256 (utf8Encode d))).take 16)

/-! ### Stream events (`models.StreamResponseType` / the yielded dictionaries) -/

inductive EventType
  | status
  | delta
  | complete
  | error
deriving DecidableEq, Repr

/-- One yielded dictionary; absent keys are `none`. -/
structure Event where
  type : EventType
  message : Option String := none
  content : Option String := none
  progress : Option Nat := none
  error_code : Option String := none
deriving DecidableEq, Repr

def mkStatus (msg : String) (p : Nat) : Event :=
  { type := .status, message := some msg, progress := some p }

def mkStatusP (p : Nat) : Event :=
  { type := .status, progress := some p }

def mkDelta (c : String) : Event :=
  { type := .delta, content := some c }

def completeEv : Event :=
  { type := .complete, progress := some 100 }

def mkError (msg code : String) : Event :=
  { type := .error, message := some msg, error_code := some code }

/-! ### Provider failures (`RateLimitError`, `APITimeoutError`, generic `Exception`) -/

inductive ProviderErr
  | rateLimited (msg : String)
  | timeout (msg : String)
  | apiError (msg : String)
deriving DecidableEq, Repr

/-- `str(e)` of the raised exception. -/
def errStr : ProviderErr → String
  | .rateLimited m => m
  | .timeout m => m
  | .apiError m => m

/-- The error event yielded before a retry (`attempt < max_retries - 1` branch). -/
def retryErrEvent : ProviderErr → Nat → Event
  | .rateLimited _, d =>
      mkError ("Rate limit reached. Retrying in " ++ toString d ++ " seconds...") "RATE_LIMIT"
  | .timeout _, d =>
      mkError ("Request timeout. Retrying in " ++ toString d ++ " seconds...") "TIMEOUT"
  | .apiError _, d =>
      mkError ("API error. Retrying in " ++ toString d ++ " seconds...") "API_ERROR"

/-- The error event yielded on the final attempt, right before the re-raise. -/
def finalErrEvent : ProviderErr → Event
  | .rateLimited _ => mkError "Rate limit exceeded. Please try again later." "RATE_LIMIT_EXCEEDED"
  | .timeout _ => mkError "Request timed out after multiple attempts." "TIMEOUT_EXCEEDED"
  | .apiError m => mkError ("API error: " ++ m) "API_ERROR_FINAL"

/-- The final-attempt error code, one per failure class. -/
def finalCode : ProviderErr → String
  | .rateLimited _ => "RATE_LIMIT_EXCEEDED"
  | .timeout _ => "TIMEOUT_EXCEEDED"
  | .apiError _ => "API_ERROR_FINAL"

/-! ### One provider attempt

`openai_client.chat.completions.create` either raises before any chunk is
delivered (`failAtCreate`), or returns a stream that delivers its chunk
contents in order and then either ends normally (`outcome = none`) or raises
mid-iteration (`outcome = some e`). An empty chunk content stands for a chunk
whose `delta.content` is falsy and is skipped by the `if` in the loop. -/

inductive AttemptSpec
  | failAtCreate (e : ProviderErr)
  | streamThen (chunks : List String) (outcome : Option ProviderErr)
deriving DecidableEq, Repr

/-- The exception (if any) the attempt raises. -/
def attemptFails : AttemptSpec → Option ProviderErr
  | .failAtCreate e => some e
  | .streamThen _ out => out

inductive AttemptOutcome
  | ok (buf : String)
  | err (e : ProviderErr)
deriving DecidableEq, Repr

/-- An action of the async generator: yielding an event, or `asyncio.sleep d`. -/
inductive Action
  | emit (e : Event)
  | sleep (d : Nat)
deriving DecidableEq, Repr

/-- The `async for chunk in stream` body: skip falsy contents, yield a delta per
chunk, and every 10th counted chunk also yield a progress status. -/
def chunkTrace : List String → Nat → List Action
  | [], _ => []
  | c :: rest, cnt =>
    if c = "" then chunkTrace rest cnt
    else
      let cnt1 := cnt + 1
      (if cnt1 % 10 = 0 then
        [Action.emit (mkDelta c), Action.emit (mkStatusP (min (20 + cnt1 / 10 * 5) 90))]
      else
        [Action.emit (mkDelta c)]) ++ chunkTrace rest cnt1

/-- `content_buffer` accumulation inside one attempt. -/
def attemptBuffer : List String → String → String
  | [], buf => buf
  | c :: rest, buf => if c = "" then attemptBuffer rest buf else attemptBuffer rest (buf ++ c)

def connectEvent (a : Nat) : Event :=
  mkStatus ("Connecting to OpenAI (attempt " ++ toString (a + 1) ++ ")...") (10 + a * 5)

def generatingEvent : Event := mkStatus "Generating analysis..." 20

/-- One iteration of the retry loop body up to (not including) the `except`
handlers: the connecting status, the attempt's own yields, and its outcome. -/
def runAttempt (a : Nat) : AttemptSpec → List Action × AttemptOutcome
  | .failAtCreate e => ([Action.emit (connectEvent a)], .err e)
  | .streamThen chunks outcome =>
    let pre := Action.emit (connectEvent a) :: Action.emit generatingEvent :: chunkTrace chunks 0
    match outcome with
    | none => (pre ++ [Action.emit completeEv], .ok (attemptBuffer chunks ""))
    | some e => (pre, .err e)

/-- Result of running `_stream_openai_analysis` to the end: all actions in
order, the number of `create` calls, and whether the generator ended normally
(`ok`, carrying the successful attempt's buffer) or re-raised (`err`). -/
structure GenResult where
  trace : List Action
  attempts : Nat
  outcome : AttemptOutcome
deriving DecidableEq, Repr

/-- The `for attempt in range(max_retries)` loop of `_stream_openai_analysis`.
`a` is the current 0-based attempt index, `r + 1` the number of iterations
left, `d` the current `retry_delay`. A retry happens only while
`attempt < max_retries - 1`, i.e. while `r ≠ 0`. -/
def streamLoop (provider : Nat → AttemptSpec) : Nat → Nat → Nat → GenResult
  | _, 0, _ => { trace := [], attempts := 0, outcome := .ok "" }
  | a, r + 1, d =>
    match (runAttempt a (provider a)).2 with
    | .ok buf => { trace := (runAttempt a (provider a)).1, attempts := 1, outcome := .ok buf }
    | .err e =>
      if r = 0 then
        { trace := (runAttempt a (provider a)).1 ++ [Action.emit (finalErrEvent e)],
          attempts := 1, outcome := .err e }
      else
        let rest := streamLoop provider (a + 1) r (d * 2)
        { trace := (runAttempt a (provider a)).1 ++
            Action.emit (retryErrEvent e d) :: Action.sleep d :: rest.trace,
          attempts := 1 + rest.attempts, outcome := rest.outcome }

/-- `_stream_openai_analysis`: `max_retries = 3`, `retry_delay = 1`. -/
def streamOpenai (provider : Nat → AttemptSpec) : GenResult :=
  streamLoop provider 0 3 1

def traceEvents (t : List Action) : List Event :=
  t.filterMap fun act => match act with
    | .emit e => some e
    | .sleep _ => none

def traceSleeps (t : List Action) : List Nat :=
  t.filterMap fun act => match act with
    | .emit _ => none
    | .sleep d => some d

/-! ### Redis cache layer -/

structure CacheEntry where
  analysis : String
  tokens_used : Option Nat
  timestamp : Nat
deriving DecidableEq, Repr

abbrev Store := List (String × CacheEntry)

def storeGet (s : Store) (k : String) : Option CacheEntry :=
  (s.find? fun p => p.1 == k).map Prod.snd

/-- `SETEX` overwrite: the new binding shadows any previous one. -/
def storePut (s : Store) (k : String) (e : CacheEntry) : Store :=
  (k, e) :: s

/-- State of `self.redis_client` plus fault switches for the two operations:
`connected = false` models `redis_client is None`; `getFails` (resp.
`putFails`) models the `GET` (resp. `SETEX`) round-trip raising. -/
structure RedisState where
  connected : Bool
  store : Store
  getFails : Bool
  putFails : Bool
deriving DecidableEq, Repr

/-- `CodeForgeAnalyzer.check_cache`: `None` client or a raised exception both
yield `None` (miss); otherwise look the key up. -/
def check_cache (rs : RedisState) (desc : String) : Option CacheEntry :=
  if rs.connected = false then none
  else if rs.getFails then none
  else storeGet rs.store (generate_cache_key desc)

/-- `CodeForgeAnalyzer.cache_result`: no client or a raised exception leave the
store untouched; otherwise `SETEX` the serialized entry. -/
def cache_result (rs : RedisState) (desc analysis : String) (tokens : Option Nat)
    (now : Nat) : RedisState :=
  if rs.connected = false then rs
  else if rs.putFails then rs
  else { rs with store := storePut rs.store (generate_cache_key desc) ⟨analysis, tokens, now⟩ }

/-! ### Orchestrator -/

inductive BackendType
  | openai
  | ollama
deriving DecidableEq, Repr

/-- `content_buffer` accumulation inside `stream_analysis`: every yielded chunk
whose type is `delta` contributes its `content` (default `""`). -/
def concatDeltas : List Event → String → String
  | [], buf => buf
  | ev :: rest, buf =>
    if ev.type = .delta then concatDeltas rest (buf ++ ev.content.getD "")
    else concatDeltas rest buf

def initEvent : Event := mkStatus "Initializing analysis..." 0

def cacheHitEvent : Event := mkStatus "Found cached analysis" 50

def ollamaEvent : Event := mkError "Ollama backend not yet implemented" "NOT_IMPLEMENTED"

/-- The event yielded by the outer `except Exception` of `stream_analysis`. -/
def analysisFailedEvent (e : ProviderErr) : Event :=
  mkError ("Analysis failed: " ++ errStr e) "ANALYSIS_FAILED"

/-- The observable result of one `stream_analysis` invocation: the yielded
events in order, the Redis state afterwards, and how many provider `create`
calls were made. -/
structure StreamRun where
  events : List Event
  redis : RedisState
  provider_calls : Nat
deriving DecidableEq, Repr

/-- `CodeForgeAnalyzer.stream_analysis`. The initializing status is yielded
first, then the cache is consulted; on a hit the cached text is replayed and
the stream ends. On a miss with the OpenAI backend the generator's yields are
relayed while `delta` contents are re-accumulated; if the generator ends
normally and the buffer is non-empty it is cached (tokens argument omitted,
hence `none`); if the generator re-raises, the outer `except` yields one
final `ANALYSIS_FAILED` error event and nothing is cached. -/
def stream_analysis (rs : RedisState) (now : Nat) (title desc : String)
    (backend : BackendType) (provider : Nat → AttemptSpec) : StreamRun :=
  match check_cache rs desc with
  | some entry =>
    { events := [initEvent, cacheHitEvent, mkDelta entry.analysis, completeEv],
      redis := rs, provider_calls := 0 }
  | none =>
    match backend with
    | .openai =>
      let g := streamOpenai provider
      let evs := traceEvents g.trace
      let buf := concatDeltas evs ""
      match g.outcome with
      | .ok _ =>
        { events := initEvent :: evs,
          redis := if buf = "" then rs else cache_result rs desc buf none now,
          provider_calls := g.attempts }
      | .err e =>
        { events := initEvent :: (evs ++ [analysisFailedEvent e]),
          redis := rs, provider_calls := g.attempts }
    | .ollama =>
      { events := [initEvent, ollamaEvent], redis := rs, provider_calls := 0 }

/-! ### Blocking surface -/

structure BlockingResult where
  analysis : String
  tokens_used : Option Nat
  cached : Bool
deriving DecidableEq, Repr

/-- The draining loop of `analyze_blocking`: accumulate `delta` contents and
raise `Exception(chunk.get("message", "Analysis failed"))` on the first
`error`-typed chunk. -/
def drainEvents : List Event → String → Except String String
  | [], buf => .ok buf
  | ev :: rest, buf =>
    if ev.type = .delta then drainEvents rest (buf ++ ev.content.getD "")
    else if ev.type = .error then .error (ev.message.getD "Analysis failed")
    else drainEvents rest buf

/-- `CodeForgeAnalyzer.analyze_blocking`: its own cache check first, then a
full drain of `stream_analysis`. The local `tokens_used` is never assigned, so
a non-cached success always carries `none`. -/
def analyze_blocking (rs : RedisState) (now : Nat) (title desc : String)
    (backend : BackendType) (provider : Nat → AttemptSpec) : Except String BlockingResult :=
  match check_cache rs desc with
  | some entry =>
    .ok { analysis := entry.analysis, tokens_used := entry.tokens_used, cached := true }
  | none =>
    match drainEvents (stream_analysis rs now title desc backend provider).events "" with
    | .ok buf => .ok { analysis := buf, tokens_used := none, cached := false }
    | .error m => .error m

/-! ### Derived observations used by the specification claims -/

/-- Fragments the provider delivered during one attempt (falsy chunks skipped),
whether or not the attempt later failed. -/
def deliveredBuffer : AttemptSpec → String
  | .failAtCreate _ => ""
  | .streamThen chunks _ => attemptBuffer chunks ""

/-- The text `stream_analysis` re-accumulates from the yielded `delta` events,
expressed against the provider behaviour: the delivered fragments of every
attempt the loop makes, failed attempts included. -/
def loopBuffer (p : Nat → AttemptSpec) : Nat → Nat → String
  | _, 0 => ""
  | a, r + 1 =>
    deliveredBuffer (p a) ++
      match attemptFails (p a) with
      | none => ""
      | some _ => if r = 0 then "" else loopBuffer p (a + 1) r

/-- The events announcing a retry: each event emitted immediately before a
backoff sleep in the generator's action trace. -/
def retryAnnouncements : List Action → List Event
  | [] => []
  | .emit e :: rest =>
    (match rest with
     | .sleep _ :: _ => e :: retryAnnouncements rest
     | _ => retryAnnouncements rest)
  | .sleep _ :: rest => retryAnnouncements rest

/-- The retry announcements predicted from the provider behaviour. -/
def loopAnnouncements (p : Nat → AttemptSpec) : Nat → Nat → Nat → List Event
  | _, 0, _ => []
  | a, r + 1, d =>
    match attemptFails (p a) with
    | none => []
    | some e => if r = 0 then [] else retryErrEvent e d :: loopAnnouncements p (a + 1) r (d * 2)

/-- Message of the first `error`-typed event of a stream, with the default
`analyze_blocking` substitutes for a missing message. -/
def firstErrorMessage (evs : List Event) : Option String :=
  (evs.find? fun e => decide (e.type = EventType.error)).map fun e =>
    e.message.getD "Analysis failed"

/-- Number of terminal-typed (`complete` or `error`) events in a stream. -/
def terminalCount (evs : List Event) : Nat :=
  (evs.filter fun e => decide (e.type = .complete) || decide (e.type = .error)).length

def hexAlphabet : List Char := "0123456789abcdef".data

/-- The doubling backoff schedule starting at delay `d`. -/
def delaysFrom (d : Nat) : Nat → List Nat
  | 0 => []
  | k + 1 => d :: delaysFrom (d * 2) k

/-! ### Basic lemmas about events and traces -/

@[simp]
lemma traceEvents_nil : traceEvents [] = [] := rfl

@[simp]
lemma traceEvents_cons_emit (e : Event) (t : List Action) :
    traceEvents (Action.emit e :: t) = e :: traceEvents t := rfl

@[simp]
lemma traceEvents_cons_sleep (d : Nat) (t : List Action) :
    traceEvents (Action.sleep d :: t) = traceEvents t := rfl

@[simp]
lemma traceEvents_append (s t : List Action) :
    traceEvents (s ++ t) = traceEvents s ++ traceEvents t :=
  List.filterMap_append s t _

@[simp]
lemma traceSleeps_nil : traceSleeps [] = [] := rfl

@[simp]
lemma traceSleeps_cons_emit (e : Event) (t : List Action) :
    traceSleeps (Action.emit e :: t) = traceSleeps t := rfl

@[simp]
lemma traceSleeps_cons_sleep (d : Nat) (t : List Action) :
    traceSleeps (Action.sleep d :: t) = d :: traceSleeps t := rfl

@[simp]
lemma traceSleeps_append (s t : List Action) :
    traceSleeps (s ++ t) = traceSleeps s ++ traceSleeps t :=
  List.filterMap_append s t _

lemma retryErr_type (e : ProviderErr) (d : Nat) : (retryErrEvent e d).type = .error := by
  cases e <;> rfl

lemma finalErr_type (e : ProviderErr) : (finalErrEvent e).type = .error := by
  cases e <;> rfl

lemma finalErr_code (e : ProviderErr) : (finalErrEvent e).error_code = some (finalCode e) := by
  cases e <;> rfl

lemma retryErr_code (e : ProviderErr) (d : Nat) :
    (retryErrEvent e d).error_code = some "RATE_LIMIT" ∨
    (retryErrEvent e d).error_code = some "TIMEOUT" ∨
    (retryErrEvent e d).error_code = some "API_ERROR" := by
  cases e <;> simp [retryErrEvent, mkError]

lemma chunkTrace_events (chunks : List String) (cnt : Nat) :
    ∀ e ∈ traceEvents (chunkTrace chunks cnt), e.type = .delta ∨ e.type = .status := by
  induction chunks generalizing cnt with
  | nil => simp [chunkTrace]
  | cons c rest ih =>
    intro e he
    rw [chunkTrace] at he
    by_cases hc : c = ""
    · rw [if_pos hc] at he
      exact ih cnt e he
    · rw [if_neg hc] at he
      by_cases h10 : (cnt + 1) % 10 = 0
      · simp only [h10, if_true, List.cons_append, List.nil_append, traceEvents_cons_emit,
          List.mem_cons] at he
        rcases he with rfl | rfl | he
        · exact Or.inl rfl
        · exact Or.inr rfl
        · exact ih (cnt + 1) e he
      · simp only [h10, if_false, List.cons_append, List.nil_append, traceEvents_cons_emit,
          List.mem_cons] at he
        rcases he with rfl | he
        · exact Or.inl rfl
        · exact ih (cnt + 1) e he

lemma chunkTrace_no_sleep (chunks : List String) (cnt : Nat) :
    traceSleeps (chunkTrace chunks cnt) = [] := by
  induction chunks generalizing cnt with
  | nil => simp [chunkTrace]
  | cons c rest ih =>
    rw [chunkTrace]
    by_cases hc : c = ""
    · rw [if_pos hc]; exact ih cnt
    · rw [if_neg hc]
      by_cases h10 : (cnt + 1) % 10 = 0
      · simp only [h10, if_true, List.cons_append, List.nil_append, traceSleeps_cons_emit]
        exact ih (cnt + 1)
      · simp only [h10, if_false, List.cons_append, List.nil_append, traceSleeps_cons_emit]
        exact ih (cnt + 1)

lemma runAttempt_no_sleep (a : Nat) (s : AttemptSpec) :
    traceSleeps (runAttempt a s).1 = [] := by
  cases s with
  | failAtCreate e => rfl
  | streamThen chunks outcome =>
    cases outcome with
    | none => simp [runAttempt, chunkTrace_no_sleep]
    | some e => simp [runAttempt, chunkTrace_no_sleep]

lemma runAttempt_snd_ok (a : Nat) (s : AttemptSpec) (h : attemptFails s = none) :
    (runAttempt a s).2 = .ok (deliveredBuffer s) := by
  cases s with
  | failAtCreate e => simp [attemptFails] at h
  | streamThen chunks outcome =>
    cases outcome with
    | none => rfl
    | some e => simp [attemptFails] at h

lemma runAttempt_snd_err (a : Nat) (s : AttemptSpec) (e : ProviderErr)
    (h : attemptFails s = some e) : (runAttempt a s).2 = .err e := by
  cases s with
  | failAtCreate e2 => simp [attemptFails] at h; rw [h]; rfl
  | streamThen chunks outcome =>
    cases outcome with
    | none => simp [attemptFails] at h
    | some e2 => simp [attemptFails] at h; rw [runAttempt, h]

lemma runAttempt_ok_events (a : Nat) (s : AttemptSpec) (buf : String)
    (h : (runAttempt a s).2 = .ok buf) :
    ∃ pre, traceEvents (runAttempt a s).1 = pre ++ [completeEv] ∧
      ∀ e ∈ pre, e.type ≠ .complete := by
  cases s with
  | failAtCreate e => simp [runAttempt] at h
  | streamThen chunks outcome =>
    cases outcome with
    | none =>
      refine ⟨connectEvent a :: generatingEvent :: traceEvents (chunkTrace chunks 0), ?_, ?_⟩
      · simp [runAttempt]
      · intro e he
        rcases List.mem_cons.mp he with rfl | he
        · intro hty; cases hty
        rcases List.mem_cons.mp he with rfl | he
        · intro hty; cases hty
        rcases chunkTrace_events chunks 0 e he with h1 | h1 <;> simp [h1]
    | some e2 => simp [runAttempt] at h

lemma runAttempt_err_events (a : Nat) (s : AttemptSpec) (e : ProviderErr)
    (h : (runAttempt a s).2 = .err e) :
    ∀ x ∈ traceEvents (runAttempt a s).1, x.type ≠ .complete := by
  cases s with
  | failAtCreate e2 =>
    intro x hx
    simp only [runAttempt, traceEvents_cons_emit, traceEvents_nil, List.mem_singleton] at hx
    subst hx
    intro hty; cases hty
  | streamThen chunks outcome =>
    cases outcome with
    | none => simp [runAttempt] at h
    | some e2 =>
      intro x hx
      simp only [runAttempt, traceEvents_cons_emit, List.mem_cons] at hx
      rcases hx with rfl | rfl | hx
      · intro hty; cases hty
      · intro hty; cases hty
      · rcases chunkTrace_events chunks 0 x hx with h1 | h1 <;> simp [h1]

lemma attemptFails_of_snd_ok (a : Nat) (s : AttemptSpec) (buf : String)
    (h : (runAttempt a s).2 = .ok buf) : attemptFails s = none := by
  cases s with
  | failAtCreate e => simp [runAttempt] at h
  | streamThen chunks outcome =>
    cases outcome with
    | none => rfl
    | some e => simp [runAttempt] at h

lemma attemptFails_of_snd_err (a : Nat) (s : AttemptSpec) (e : ProviderErr)
    (h : (runAttempt a s).2 = .err e) : attemptFails s = some e := by
  cases s with
  | failAtCreate e2 => simp [runAttempt] at h; rw [attemptFails, h]
  | streamThen chunks outcome =>
    cases outcome with
    | none => simp [runAttempt] at h
    | some e2 => simp [runAttempt] at h; rw [attemptFails, h]

/-! ### Unfolding equations for the retry loop -/

lemma streamLoop_ok_eq (p : Nat → AttemptSpec) (a r d : Nat) (buf : String)
    (h : (runAttempt a (p a)).2 = .ok buf) :
    streamLoop p a (r + 1) d = ⟨(runAttempt a (p a)).1, 1, .ok buf⟩ := by
  simp only [streamLoop, h]

lemma streamLoop_err_zero (p : Nat → AttemptSpec) (a d : Nat) (e : ProviderErr)
    (h : (runAttempt a (p a)).2 = .err e) :
    streamLoop p a 1 d =
      ⟨(runAttempt a (p a)).1 ++ [Action.emit (finalErrEvent e)], 1, .err e⟩ := by
  simp only [streamLoop, h, if_true]

lemma streamLoop_err_succ (p : Nat → AttemptSpec) (a r d : Nat) (e : ProviderErr)
    (h : (runAttempt a (p a)).2 = .err e) :
    streamLoop p a (r + 2) d =
      ⟨(runAttempt a (p a)).1 ++
          Action.emit (retryErrEvent e d) :: Action.sleep d ::
            (streamLoop p (a + 1) (r + 1) (d * 2)).trace,
        1 + (streamLoop p (a + 1) (r + 1) (d * 2)).attempts,
        (streamLoop p (a + 1) (r + 1) (d * 2)).outcome⟩ := by
  simp only [streamLoop, h]
  rfl

/-! ### Shape of the generator's event stream -/

lemma streamLoop_ok_events (p : Nat → AttemptSpec) :
    ∀ r a d buf, (streamLoop p a (r + 1) d).outcome = .ok buf →
      ∃ pre, traceEvents (streamLoop p a (r + 1) d).trace = pre ++ [completeEv] ∧
        ∀ e ∈ pre, e.type ≠ .complete := by
  intro r
  induction r with
  | zero =>
    intro a d buf h
    rcases hs : (runAttempt a (p a)).2 with b | e
    · rw [streamLoop_ok_eq p a 0 d b hs]
      exact runAttempt_ok_events a (p a) b hs
    · rw [streamLoop_err_zero p a d e hs] at h
      simp at h
  | succ r ih =>
    intro a d buf h
    rcases hs : (runAttempt a (p a)).2 with b | e
    · rw [streamLoop_ok_eq p a (r + 1) d b hs]
      exact runAttempt_ok_events a (p a) b hs
    · rw [streamLoop_err_succ p a r d e hs] at h ⊢
      obtain ⟨pre, hpre, hnc⟩ := ih (a + 1) (d * 2) buf h
      refine ⟨traceEvents (runAttempt a (p a)).1 ++ retryErrEvent e d :: pre, ?_, ?_⟩
      · simp only [traceEvents_append, traceEvents_cons_emit, traceEvents_cons_sleep, hpre,
          List.cons_append, List.append_assoc]
      · intro x hx
        rcases List.mem_append.mp hx with hx | hx
        · exact runAttempt_err_events a (p a) e hs x hx
        · rcases List.mem_cons.mp hx with rfl | hx
          · rw [retryErr_type]; intro hc; cases hc
          · exact hnc x hx

lemma streamLoop_err_events (p : Nat → AttemptSpec) :
    ∀ r a d e, (streamLoop p a (r + 1) d).outcome = .err e →
      ∃ pre, traceEvents (streamLoop p a (r + 1) d).trace = pre ++ [finalErrEvent e] ∧
        ∀ x ∈ pre, x.type ≠ .complete := by
  intro r
  induction r with
  | zero =>
    intro a d e h
    rcases hs : (runAttempt a (p a)).2 with b | e2
    · rw [streamLoop_ok_eq p a 0 d b hs] at h
      simp at h
    · rw [streamLoop_err_zero p a d e2 hs] at h ⊢
      simp only [AttemptOutcome.err.injEq] at h
      subst h
      refine ⟨traceEvents (runAttempt a (p a)).1, by simp, ?_⟩
      exact runAttempt_err_events a (p a) e2 hs
  | succ r ih =>
    intro a d e h
    rcases hs : (runAttempt a (p a)).2 with b | e2
    · rw [streamLoop_ok_eq p a (r + 1) d b hs] at h
      simp at h
    · rw [streamLoop_err_succ p a r d e2 hs] at h ⊢
      obtain ⟨pre, hpre, hnc⟩ := ih (a + 1) (d * 2) e h
      refine ⟨traceEvents (runAttempt a (p a)).1 ++ retryErrEvent e2 d :: pre, ?_, ?_⟩
      · simp only [traceEvents_append, traceEvents_cons_emit, traceEvents_cons_sleep, hpre,
          List.cons_append, List.append_assoc]
      · intro x hx
        rcases List.mem_append.mp hx with hx | hx
        · exact runAttempt_err_events a (p a) e2 hs x hx
        · rcases List.mem_cons.mp hx with rfl | hx
          · rw [retryErr_type]; intro hc; cases hc
          · exact hnc x hx

/-! ### Attempt counting and backoff delays -/

lemma streamLoop_attempts_le (p : Nat → AttemptSpec) :
    ∀ r a d, (streamLoop p a r d).attempts ≤ r := by
  intro r
  induction r with
  | zero => intro a d; simp [streamLoop]
  | succ r ih =>
    intro a d
    rcases hs : (runAttempt a (p a)).2 with b | e
    · rw [streamLoop_ok_eq p a r d b hs]
      show 1 ≤ r + 1
      omega
    · cases r with
      | zero => rw [streamLoop_err_zero p a d e hs]
      | succ r2 =>
        rw [streamLoop_err_succ p a r2 d e hs]
        have := ih (a + 1) (d * 2)
        show 1 + (streamLoop p (a + 1) (r2 + 1) (d * 2)).attempts ≤ r2 + 1 + 1
        omega

lemma streamLoop_attempts_pos (p : Nat → AttemptSpec) (r a d : Nat) :
    1 ≤ (streamLoop p a (r + 1) d).attempts := by
  rcases hs : (runAttempt a (p a)).2 with b | e
  · rw [streamLoop_ok_eq p a r d b hs]
  · cases r with
    | zero => rw [streamLoop_err_zero p a d e hs]
    | succ r2 =>
      rw [streamLoop_err_succ p a r2 d e hs]
      simp only
      omega

lemma streamLoop_sleeps (p : Nat → AttemptSpec) :
    ∀ r a d, traceSleeps (streamLoop p a r d).trace =
      List.take ((streamLoop p a r d).attempts - 1) (delaysFrom d (r - 1)) := by
  intro r
  induction r with
  | zero => intro a d; simp [streamLoop]
  | succ r ih =>
    intro a d
    rcases hs : (runAttempt a (p a)).2 with b | e
    · rw [streamLoop_ok_eq p a r d b hs]
      simp [runAttempt_no_sleep]
    · cases r with
      | zero =>
        rw [streamLoop_err_zero p a d e hs]
        simp [runAttempt_no_sleep, delaysFrom]
      | succ r2 =>
        rw [streamLoop_err_succ p a r2 d e hs]
        have hpos := streamLoop_attempts_pos p r2 (a + 1) (d * 2)
        obtain ⟨m, hm⟩ := Nat.exists_eq_add_of_le hpos
        simp only [traceSleeps_append, runAttempt_no_sleep, traceSleeps_cons_emit,
          traceSleeps_cons_sleep, List.nil_append]
        rw [ih (a + 1) (d * 2)]
        simp only [Nat.add_sub_cancel_left, Nat.succ_sub_one]
        rw [hm]
        simp only [delaysFrom]
        rw [show 1 + m - 1 = m by omega, Nat.add_comm 1 m, List.take_succ_cons]

/-! ### Delta accumulation -/

lemma concatDeltas_append (xs ys : List Event) (buf : String) :
    concatDeltas (xs ++ ys) buf = concatDeltas ys (concatDeltas xs buf) := by
  induction xs generalizing buf with
  | nil => rfl
  | cons ev rest ih =>
    simp only [List.cons_append, concatDeltas, List.append_eq]
    by_cases h : ev.type = .delta
    · rw [if_pos h, if_pos h, ih]
    · rw [if_neg h, if_neg h, ih]

lemma concatDeltas_accum (xs : List Event) (buf : String) :
    concatDeltas xs buf = buf ++ concatDeltas xs "" := by
  induction xs generalizing buf with
  | nil => simp [concatDeltas, String.append_empty]
  | cons ev rest ih =>
    simp only [concatDeltas]
    by_cases h : ev.type = .delta
    · rw [if_pos h, if_pos h, String.empty_append, ih (buf ++ ev.content.getD ""),
        ih (ev.content.getD ""), String.append_assoc]
    · rw [if_neg h, if_neg h, ih buf]

lemma attemptBuffer_accum (chunks : List String) (buf : String) :
    attemptBuffer chunks buf = buf ++ attemptBuffer chunks "" := by
  induction chunks generalizing buf with
  | nil => simp [attemptBuffer, String.append_empty]
  | cons c rest ih =>
    simp only [attemptBuffer]
    by_cases hc : c = ""
    · rw [if_pos hc, if_pos hc, ih buf]
    · rw [if_neg hc, if_neg hc, String.empty_append, ih (buf ++ c), ih c,
        String.append_assoc]

@[simp]
lemma concatDeltas_nil (buf : String) : concatDeltas [] buf = buf := rfl

@[simp]
lemma concatDeltas_cons_delta (c : String) (l : List Event) (buf : String) :
    concatDeltas (mkDelta c :: l) buf = concatDeltas l (buf ++ c) := rfl

@[simp]
lemma concatDeltas_cons_status (msg : String) (p : Nat) (l : List Event) (buf : String) :
    concatDeltas (mkStatus msg p :: l) buf = concatDeltas l buf := rfl

@[simp]
lemma concatDeltas_cons_statusP (p : Nat) (l : List Event) (buf : String) :
    concatDeltas (mkStatusP p :: l) buf = concatDeltas l buf := rfl

@[simp]
lemma concatDeltas_cons_complete (l : List Event) (buf : String) :
    concatDeltas (completeEv :: l) buf = concatDeltas l buf := rfl

@[simp]
lemma concatDeltas_cons_error (m code : String) (l : List Event) (buf : String) :
    concatDeltas (mkError m code :: l) buf = concatDeltas l buf := rfl

@[simp]
lemma concatDeltas_cons_retryErr (e : ProviderErr) (d : Nat) (l : List Event) (buf : String) :
    concatDeltas (retryErrEvent e d :: l) buf = concatDeltas l buf := by
  cases e <;> rfl

@[simp]
lemma concatDeltas_cons_finalErr (e : ProviderErr) (l : List Event) (buf : String) :
    concatDeltas (finalErrEvent e :: l) buf = concatDeltas l buf := by
  cases e <;> rfl

@[simp]
lemma concatDeltas_cons_connect (a : Nat) (l : List Event) (buf : String) :
    concatDeltas (connectEvent a :: l) buf = concatDeltas l buf := rfl

@[simp]
lemma concatDeltas_cons_generating (l : List Event) (buf : String) :
    concatDeltas (generatingEvent :: l) buf = concatDeltas l buf := rfl

lemma chunkTrace_deltas (chunks : List String) (cnt : Nat) :
    concatDeltas (traceEvents (chunkTrace chunks cnt)) "" = attemptBuffer chunks "" := by
  induction chunks generalizing cnt with
  | nil => rfl
  | cons c rest ih =>
    rw [chunkTrace, attemptBuffer]
    by_cases hc : c = ""
    · rw [if_pos hc, if_pos hc]
      exact ih cnt
    · rw [if_neg hc, if_neg hc]
      by_cases h10 : (cnt + 1) % 10 = 0
      · simp only [h10, if_true, List.cons_append, List.nil_append, traceEvents_cons_emit,
          concatDeltas_cons_delta, concatDeltas_cons_statusP]
        rw [concatDeltas_accum, ih (cnt + 1), ← attemptBuffer_accum]
      · simp only [h10, if_false, List.cons_append, List.nil_append, traceEvents_cons_emit,
          concatDeltas_cons_delta]
        rw [concatDeltas_accum, ih (cnt + 1), ← attemptBuffer_accum]

lemma runAttempt_deltas (a : Nat) (s : AttemptSpec) :
    concatDeltas (traceEvents (runAttempt a s).1) "" = deliveredBuffer s := by
  cases s with
  | failAtCreate e => rfl
  | streamThen chunks outcome =>
    cases outcome with
    | none =>
      simp only [runAttempt, deliveredBuffer, List.cons_append, traceEvents_cons_emit,
        traceEvents_append, concatDeltas_cons_connect, concatDeltas_cons_generating,
        traceEvents_nil]
      rw [concatDeltas_append, concatDeltas_cons_complete, concatDeltas_nil,
        chunkTrace_deltas]
    | some e =>
      simp only [runAttempt, deliveredBuffer, traceEvents_cons_emit,
        concatDeltas_cons_connect, concatDeltas_cons_generating]
      exact chunkTrace_deltas chunks 0

lemma loopBuffer_none (p : Nat → AttemptSpec) (a r : Nat) (h : attemptFails (p a) = none) :
    loopBuffer p a (r + 1) = deliveredBuffer (p a) := by
  simp [loopBuffer, h]

lemma loopBuffer_some_zero (p : Nat → AttemptSpec) (a : Nat) (e : ProviderErr)
    (h : attemptFails (p a) = some e) : loopBuffer p a 1 = deliveredBuffer (p a) := by
  simp [loopBuffer, h]

lemma loopBuffer_some_succ (p : Nat → AttemptSpec) (a r : Nat) (e : ProviderErr)
    (h : attemptFails (p a) = some e) :
    loopBuffer p a (r + 2) = deliveredBuffer (p a) ++ loopBuffer p (a + 1) (r + 1) := by
  simp [loopBuffer, h]

lemma streamLoop_deltas (p : Nat → AttemptSpec) :
    ∀ r a d, concatDeltas (traceEvents (streamLoop p a r d).trace) "" = loopBuffer p a r := by
  intro r
  induction r with
  | zero => intro a d; rfl
  | succ r ih =>
    intro a d
    rcases hs : (runAttempt a (p a)).2 with b | e
    · rw [streamLoop_ok_eq p a r d b hs, loopBuffer_none p a r (attemptFails_of_snd_ok a (p a) b hs)]
      exact runAttempt_deltas a (p a)
    · cases r with
      | zero =>
        rw [streamLoop_err_zero p a d e hs,
          loopBuffer_some_zero p a e (attemptFails_of_snd_err a (p a) e hs)]
        simp only [traceEvents_append, traceEvents_cons_emit, traceEvents_nil]
        rw [concatDeltas_append, concatDeltas_cons_finalErr, concatDeltas_nil]
        exact runAttempt_deltas a (p a)
      | succ r2 =>
        rw [streamLoop_err_succ p a r2 d e hs,
          loopBuffer_some_succ p a r2 e (attemptFails_of_snd_err a (p a) e hs)]
        simp only [traceEvents_append, traceEvents_cons_emit, traceEvents_cons_sleep]
        rw [concatDeltas_append, concatDeltas_cons_retryErr, concatDeltas_accum,
          runAttempt_deltas, ih (a + 1) (d * 2)]

/-! ### Retry announcements -/

@[simp]
lemma ra_nil : retryAnnouncements [] = [] := rfl

@[simp]
lemma ra_single_emit (e : Event) : retryAnnouncements [Action.emit e] = [] := rfl

@[simp]
lemma ra_emit_emit (e e2 : Event) (rest : List Action) :
    retryAnnouncements (Action.emit e :: Action.emit e2 :: rest) =
      retryAnnouncements (Action.emit e2 :: rest) := rfl

@[simp]
lemma ra_emit_sleep (e : Event) (dd : Nat) (rest : List Action) :
    retryAnnouncements (Action.emit e :: Action.sleep dd :: rest) =
      e :: retryAnnouncements (Action.sleep dd :: rest) := rfl

@[simp]
lemma ra_sleep (dd : Nat) (rest : List Action) :
    retryAnnouncements (Action.sleep dd :: rest) = retryAnnouncements rest := rfl

lemma sleep_not_mem_of_traceSleeps_nil (t : List Action) (h : traceSleeps t = []) :
    ∀ dd, Action.sleep dd ∉ t := by
  intro dd hmem
  have hd : dd ∈ traceSleeps t := by
    simp only [traceSleeps, List.mem_filterMap]
    exact ⟨Action.sleep dd, hmem, rfl⟩
  rw [h] at hd
  cases hd

lemma ra_append : ∀ (xs : List Action), (∀ dd, Action.sleep dd ∉ xs) →
    ∀ ys : List Action, (∀ dd, ys.head? ≠ some (Action.sleep dd)) →
    retryAnnouncements (xs ++ ys) = retryAnnouncements ys := by
  intro xs
  induction xs with
  | nil => intro _ ys _; rfl
  | cons x rest ih =>
    intro hxs ys hys
    have hrest : ∀ dd, Action.sleep dd ∉ rest := fun dd h =>
      hxs dd (List.mem_cons_of_mem _ h)
    cases x with
    | sleep dd => exact absurd (List.mem_cons_self _ _) (fun h => hxs dd h)
    | emit e =>
      cases rest with
      | nil =>
        cases ys with
        | nil => rfl
        | cons y ys2 =>
          cases y with
          | sleep dd => exact absurd rfl (hys dd)
          | emit e2 => simp only [List.nil_append, List.cons_append, ra_emit_emit]
      | cons x2 rest2 =>
        cases x2 with
        | sleep dd => exact absurd (List.mem_cons_self _ _) (fun h => hrest dd h)
        | emit e2 =>
          simp only [List.cons_append, ra_emit_emit]
          exact ih hrest ys hys

lemma ra_no_sleep (t : List Action) (h : ∀ dd, Action.sleep dd ∉ t) :
    retryAnnouncements t = [] := by
  have := ra_append t h [] (by intro dd; simp)
  simpa using this

lemma loopAnnouncements_none (p : Nat → AttemptSpec) (a r d : Nat)
    (h : attemptFails (p a) = none) : loopAnnouncements p a (r + 1) d = [] := by
  simp [loopAnnouncements, h]

lemma loopAnnouncements_some_zero (p : Nat → AttemptSpec) (a d : Nat) (e : ProviderErr)
    (h : attemptFails (p a) = some e) : loopAnnouncements p a 1 d = [] := by
  simp [loopAnnouncements, h]

lemma loopAnnouncements_some_succ (p : Nat → AttemptSpec) (a r d : Nat) (e : ProviderErr)
    (h : attemptFails (p a) = some e) :
    loopAnnouncements p a (r + 2) d =
      retryErrEvent e d :: loopAnnouncements p (a + 1) (r + 1) (d * 2) := by
  simp [loopAnnouncements, h]

lemma streamLoop_ra (p : Nat → AttemptSpec) :
    ∀ r a d, retryAnnouncements (streamLoop p a r d).trace = loopAnnouncements p a r d := by
  intro r
  induction r with
  | zero => intro a d; rfl
  | succ r ih =>
    intro a d
    have hnos := sleep_not_mem_of_traceSleeps_nil _ (runAttempt_no_sleep a (p a))
    rcases hs : (runAttempt a (p a)).2 with b | e
    · rw [streamLoop_ok_eq p a r d b hs,
        loopAnnouncements_none p a r d (attemptFails_of_snd_ok a (p a) b hs)]
      exact ra_no_sleep _ hnos
    · cases r with
      | zero =>
        rw [streamLoop_err_zero p a d e hs,
          loopAnnouncements_some_zero p a d e (attemptFails_of_snd_err a (p a) e hs)]
        refine ra_no_sleep _ ?_
        intro dd hmem
        rcases List.mem_append.mp hmem with hmem | hmem
        · exact hnos dd hmem
        · simp at hmem
      | succ r2 =>
        rw [streamLoop_err_succ p a r2 d e hs,
          loopAnnouncements_some_succ p a r2 d e (attemptFails_of_snd_err a (p a) e hs)]
        rw [ra_append _ hnos _ (by intro dd; simp), ra_emit_sleep, ra_sleep,
          ih (a + 1) (d * 2)]

lemma loopAnnouncements_mem (p : Nat → AttemptSpec) :
    ∀ r a d e, e ∈ loopAnnouncements p a r d → ∃ er dd, e = retryErrEvent er dd := by
  intro r
  induction r with
  | zero => intro a d e he; cases he
  | succ r ih =>
    intro a d e he
    rcases hf : attemptFails (p a) with - | er
    · rw [loopAnnouncements_none p a r d hf] at he
      cases he
    · cases r with
      | zero =>
        rw [loopAnnouncements_some_zero p a d er hf] at he
        cases he
      | succ r2 =>
        rw [loopAnnouncements_some_succ p a r2 d er hf] at he
        rcases List.mem_cons.mp he with rfl | he
        · exact ⟨er, d, rfl⟩
        · exact ih (a + 1) (d * 2) e he

/-! ### Draining the stream in `analyze_blocking` -/

lemma firstErrorMessage_nil : firstErrorMessage [] = none := rfl

lemma firstErrorMessage_cons_error (ev : Event) (rest : List Event) (h : ev.type = .error) :
    firstErrorMessage (ev :: rest) = some (ev.message.getD "Analysis failed") := by
  simp [firstErrorMessage, List.find?_cons, h]

lemma firstErrorMessage_cons_other (ev : Event) (rest : List Event) (h : ¬ ev.type = .error) :
    firstErrorMessage (ev :: rest) = firstErrorMessage rest := by
  simp [firstErrorMessage, List.find?_cons, h]

lemma drainEvents_error_iff :
    ∀ (evs : List Event) (buf m : String),
      drainEvents evs buf = .error m ↔ firstErrorMessage evs = some m := by
  intro evs
  induction evs with
  | nil => intro buf m; simp [drainEvents, firstErrorMessage_nil]
  | cons ev rest ih =>
    intro buf m
    simp only [drainEvents]
    by_cases hd : ev.type = .delta
    · have hne : ¬ ev.type = .error := by rw [hd]; intro h; cases h
      rw [if_pos hd, firstErrorMessage_cons_other ev rest hne]
      exact ih _ m
    · by_cases he : ev.type = .error
      · rw [if_neg hd, if_pos he, firstErrorMessage_cons_error ev rest he]
        constructor
        · intro h; cases h; rfl
        · intro h
          simp only [Option.some.injEq] at h
          rw [h]
      · rw [if_neg hd, if_neg he, firstErrorMessage_cons_other ev rest he]
        exact ih _ m

lemma drainEvents_ok_no_error :
    ∀ (evs : List Event) (buf : String), firstErrorMessage evs = none →
      drainEvents evs buf = .ok (concatDeltas evs buf) := by
  intro evs
  induction evs with
  | nil => intro buf _; rfl
  | cons ev rest ih =>
    intro buf h
    simp only [drainEvents, concatDeltas]
    by_cases hd : ev.type = .delta
    · have hne : ¬ ev.type = .error := by rw [hd]; intro hh; cases hh
      rw [firstErrorMessage_cons_other ev rest hne] at h
      rw [if_pos hd, if_pos hd]
      exact ih _ h
    · by_cases he : ev.type = .error
      · rw [firstErrorMessage_cons_error ev rest he] at h
        cases h
      · rw [firstErrorMessage_cons_other ev rest he] at h
        rw [if_neg hd, if_neg he, if_neg hd]
        exact ih _ h

/-! ### Cache store -/

lemma storeGet_storePut_same (s : Store) (k : String) (e : CacheEntry) :
    storeGet (storePut s k e) k = some e := by
  simp [storeGet, storePut, List.find?_cons]

lemma storeGet_storePut_other (s : Store) (k k2 : String) (e : CacheEntry) (h : ¬ k = k2) :
    storeGet (storePut s k e) k2 = storeGet s k2 := by
  simp [storeGet, storePut, List.find?_cons, h]

lemma storeGet_nil (k : String) : storeGet [] k = none := rfl

/-! ### Unfolding the cache layer and orchestrator -/

lemma check_cache_not_connected (rs : RedisState) (d : String) (h : rs.connected = false) :
    check_cache rs d = none := by
  simp [check_cache, h]

lemma check_cache_getFails (rs : RedisState) (d : String) (h : rs.getFails = true) :
    check_cache rs d = none := by
  simp [check_cache, h]

lemma check_cache_normal (rs : RedisState) (d : String) (hc : rs.connected = true)
    (hg : rs.getFails = false) :
    check_cache rs d = storeGet rs.store (generate_cache_key d) := by
  simp [check_cache, hc, hg]

lemma cache_result_normal (rs : RedisState) (d an : String) (tok : Option Nat) (now : Nat)
    (hc : rs.connected = true) (hp : rs.putFails = false) :
    cache_result rs d an tok now =
      { rs with store := storePut rs.store (generate_cache_key d) ⟨an, tok, now⟩ } := by
  simp [cache_result, hc, hp]

lemma cache_result_not_connected (rs : RedisState) (d an : String) (tok : Option Nat)
    (now : Nat) (h : rs.connected = false) : cache_result rs d an tok now = rs := by
  simp [cache_result, h]

lemma cache_result_putFails (rs : RedisState) (d an : String) (tok : Option Nat)
    (now : Nat) (h : rs.putFails = true) : cache_result rs d an tok now = rs := by
  simp [cache_result, h]

lemma stream_analysis_hit (rs : RedisState) (now : Nat) (t d : String) (b : BackendType)
    (p : Nat → AttemptSpec) (entry : CacheEntry) (h : check_cache rs d = some entry) :
    stream_analysis rs now t d b p =
      ⟨[initEvent, cacheHitEvent, mkDelta entry.analysis, completeEv], rs, 0⟩ := by
  simp only [stream_analysis, h]

lemma stream_analysis_miss_ollama (rs : RedisState) (now : Nat) (t d : String)
    (p : Nat → AttemptSpec) (h : check_cache rs d = none) :
    stream_analysis rs now t d .ollama p = ⟨[initEvent, ollamaEvent], rs, 0⟩ := by
  simp only [stream_analysis, h]

lemma stream_analysis_miss_openai_ok (rs : RedisState) (now : Nat) (t d : String)
    (p : Nat → AttemptSpec) (buf : String) (hmiss : check_cache rs d = none)
    (hok : (streamOpenai p).outcome = .ok buf) :
    stream_analysis rs now t d .openai p =
      ⟨initEvent :: traceEvents (streamOpenai p).trace,
        if concatDeltas (traceEvents (streamOpenai p).trace) "" = "" then rs
        else cache_result rs d (concatDeltas (traceEvents (streamOpenai p).trace) "") none now,
        (streamOpenai p).attempts⟩ := by
  simp only [stream_analysis, hmiss, hok]

lemma stream_analysis_miss_openai_err (rs : RedisState) (now : Nat) (t d : String)
    (p : Nat → AttemptSpec) (e : ProviderErr) (hmiss : check_cache rs d = none)
    (herr : (streamOpenai p).outcome = .err e) :
    stream_analysis rs now t d .openai p =
      ⟨initEvent :: (traceEvents (streamOpenai p).trace ++ [analysisFailedEvent e]),
        rs, (streamOpenai p).attempts⟩ := by
  simp only [stream_analysis, hmiss, herr]

/-! ### Hex digest structure -/

lemma mem_wordHex {c : Char} {w : Nat} (h : c ∈ wordHex w) : ∃ n, n < 16 ∧ c = hexChar n := by
  simp only [wordHex, List.mem_cons, List.not_mem_nil, or_false] at h
  rcases h with rfl | rfl | rfl | rfl | rfl | rfl | rfl | rfl <;>
    exact ⟨_, Nat.mod_lt _ (by decide), rfl⟩

lemma hexChar_mem_alphabet (n : Nat) (h : n < 16) : hexChar n ∈ hexAlphabet := by
  interval_cases n <;> decide

lemma mem_hexDigest {c : Char} {s : Hash8} (h : c ∈ hexDigest s) :
    ∃ n, n < 16 ∧ c = hexChar n := by
  simp only [hexDigest, List.mem_append] at h
  rcases h with ((((((h | h) | h) | h) | h) | h) | h) | h <;> exact mem_wordHex h

lemma hexDigest_length (s : Hash8) : (hexDigest s).length = 64 := by
  simp [hexDigest, wordHex]

/-! ### Claim theorems -/

/-- Claim C8 (confirmed). For every description `d`, the cache key equals the
string `"analysis:"` followed by the first 16 hexadecimal characters of the
SHA-256 hex digest of the UTF-8 encoding of `d`; the digest has 64 hex
characters (a 256-bit hash), the taken prefix has exactly 16, and every
character of it is a lowercase hexadecimal digit. The key is a pure function
of the description alone — `_generate_cache_key`, `check_cache` and
`cache_result` receive only the description, so no title or backend can
affect it — hence it is deterministic. -/
theorem C8_cache_key (d : String) :
    generate_cache_key d =
      "analysis:" ++ String.mk ((hexDigest (sha256 (utf8Encode d))).take 16)
    ∧ (hexDigest (sha256 (utf8Encode d))).length = 64
    ∧ ((hexDigest (sha256 (utf8Encode d))).take 16).length = 16
    ∧ ∀ c ∈ (hexDigest (sha256 (utf8Encode d))).take 16, c ∈ hexAlphabet := by
  refine ⟨rfl, hexDigest_length _, ?_, ?_⟩
  · simp [List.length_take, hexDigest_length]
  · intro c hc
    obtain ⟨n, hn, rfl⟩ := mem_hexDigest (List.mem_of_mem_take hc)
    exact hexChar_mem_alphabet n hn

set_option maxRecDepth 100000 in
/-- Known-answer test: the SHA-256 embedding reproduces the digest of the
empty string, so the cache key matches the one the Python code computes. -/
theorem generate_cache_key_empty :
    generate_cache_key "" = "analysis:e3b0c44298fc1c14" := by decide

set_option maxRecDepth 100000 in
/-- Known-answer test: SHA-256 of `"abc"` starts `ba7816bf8f01cfea`. -/
theorem generate_cache_key_abc :
    generate_cache_key "abc" = "analysis:ba7816bf8f01cfea" := by decide

/-- Claim C1 (counterexample). With a provider that raises `Timeout` at every
attempt and no cache, the emitted stream contains four terminal-typed events
(the three `error` retry/exhaustion events and the final `ANALYSIS_FAILED`
wrapper), not exactly one, refuting the claim that every stream contains
exactly one `Complete`-or-`Error` event. -/
theorem C1_counterexample :
    terminalCount (stream_analysis ⟨false, [], false, false⟩ 0 "t" "d" .openai
        (fun _ => .failAtCreate (.timeout "boom"))).events = 4
    ∧ terminalCount (stream_analysis ⟨false, [], false, false⟩ 0 "t" "d" .openai
        (fun _ => .failAtCreate (.timeout "boom"))).events ≠ 1 := by
  decide

/-- Claim C1 (amended): every invocation's stream is nonempty and ends in a
`complete`- or `error`-typed event, and a `complete` event can only occur as
the very last event; but `error` events are not necessarily terminal — retry
notifications are `error`-typed and are followed by further events, and after
retry exhaustion the final-code error event is followed by one more
`ANALYSIS_FAILED` error event. -/
theorem C1_amended (rs : RedisState) (now : Nat) (t d : String) (b : BackendType)
    (p : Nat → AttemptSpec) :
    ∃ pre last, (stream_analysis rs now t d b p).events = pre ++ [last]
      ∧ (last.type = .complete ∨ last.type = .error)
      ∧ ∀ e ∈ pre, e.type ≠ .complete := by
  cases hc : check_cache rs d with
  | some entry =>
    rw [stream_analysis_hit rs now t d b p entry hc]
    refine ⟨[initEvent, cacheHitEvent, mkDelta entry.analysis], completeEv, rfl, Or.inl rfl, ?_⟩
    intro e he
    simp only [List.mem_cons, List.not_mem_nil, or_false] at he
    rcases he with rfl | rfl | rfl <;> (intro h; cases h)
  | none =>
    cases b with
    | ollama =>
      rw [stream_analysis_miss_ollama rs now t d p hc]
      refine ⟨[initEvent], ollamaEvent, rfl, Or.inr rfl, ?_⟩
      intro e he
      rcases List.mem_singleton.mp he with rfl
      intro h; cases h
    | openai =>
      cases hout : (streamOpenai p).outcome with
      | ok buf =>
        rw [stream_analysis_miss_openai_ok rs now t d p buf hc hout]
        obtain ⟨pre, hpre, hnc⟩ := streamLoop_ok_events p 2 0 1 buf hout
        refine ⟨initEvent :: pre, completeEv, ?_, Or.inl rfl, ?_⟩
        · have hpre2 : traceEvents (streamOpenai p).trace = pre ++ [completeEv] := hpre
          rw [hpre2]
          simp
        · intro e he
          rcases List.mem_cons.mp he with rfl | he
          · intro h; cases h
          · exact hnc e he
      | err e =>
        rw [stream_analysis_miss_openai_err rs now t d p e hc hout]
        obtain ⟨pre, hpre, hnc⟩ := streamLoop_err_events p 2 0 1 e hout
        refine ⟨initEvent :: (pre ++ [finalErrEvent e]), analysisFailedEvent e, ?_, Or.inr rfl, ?_⟩
        · have hpre2 : traceEvents (streamOpenai p).trace = pre ++ [finalErrEvent e] := hpre
          rw [hpre2]
          simp
        · intro x hx
          rcases List.mem_cons.mp hx with rfl | hx
          · intro h; cases h
          rcases List.mem_append.mp hx with hx | hx
          · exact hnc x hx
          · rcases List.mem_singleton.mp hx with rfl
            rw [finalErr_type]; intro h; cases h

set_option maxRecDepth 400000 in
/-- Claim C2 (counterexample). Attempt 1 delivers fragment `"A"` and then raises
`RateLimited`; attempt 2 delivers `"B"`, `"C"` and completes. The orchestrator
caches `"ABC"` — the failed attempt's fragment included — while the successful
attempt's own concatenation is `"BC"`, refuting the claim that partial-attempt
fragments are discarded from the accumulated/cached text. -/
theorem C2_counterexample :
    storeGet (stream_analysis ⟨true, [], false, false⟩ 5 "t" "d" .openai
        (fun n => if n = 0 then AttemptSpec.streamThen ["A"] (some (.rateLimited "rl"))
          else AttemptSpec.streamThen ["B", "C"] none)).redis.store (generate_cache_key "d")
      = some ⟨"ABC", none, 5⟩
    ∧ attemptBuffer ["B", "C"] "" = "BC"
    ∧ ("ABC" : String) ≠ "BC" := by
  decide

/-- Claim C2 (amended): on a cache miss with the OpenAI backend, when the
generator ends normally, the text the orchestrator accumulates from the
yielded `delta` events — and, when non-empty, writes to the cache with
`tokens_used = none` — is `loopBuffer`: the concatenation of the fragments
delivered by **every** attempt made, in order, fragments of failed attempts
included (each attempt's fragments appear exactly once; nothing is
discarded). -/
theorem C2_amended (rs : RedisState) (now : Nat) (t d : String) (p : Nat → AttemptSpec)
    (buf : String)
    (hconn : rs.connected = true) (hget : rs.getFails = false) (hput : rs.putFails = false)
    (hmiss : storeGet rs.store (generate_cache_key d) = none)
    (hok : (streamOpenai p).outcome = .ok buf)
    (hne : loopBuffer p 0 3 ≠ "") :
    concatDeltas (stream_analysis rs now t d .openai p).events "" = loopBuffer p 0 3
    ∧ storeGet (stream_analysis rs now t d .openai p).redis.store (generate_cache_key d)
        = some ⟨loopBuffer p 0 3, none, now⟩ := by
  have hcc : check_cache rs d = none := by rw [check_cache_normal rs d hconn hget, hmiss]
  have hdel : concatDeltas (traceEvents (streamOpenai p).trace) "" = loopBuffer p 0 3 :=
    streamLoop_deltas p 3 0 1
  rw [stream_analysis_miss_openai_ok rs now t d p buf hcc hok]
  constructor
  · simp only [initEvent, concatDeltas_cons_status]
    exact hdel
  · rw [hdel, if_neg hne, cache_result_normal rs d _ none now hconn hput]
    exact storeGet_storePut_same _ _ _

/-- Claim C2 witness: the amended theorem applied at the two-attempt provider of
the counterexample; the cached entry is the cross-attempt buffer. -/
theorem C2_witness :
    storeGet (stream_analysis ⟨true, [], false, false⟩ 5 "t" "d" .openai
        (fun n => if n = 0 then AttemptSpec.streamThen ["A"] (some (.rateLimited "rl"))
          else AttemptSpec.streamThen ["B", "C"] none)).redis.store (generate_cache_key "d")
      = some ⟨loopBuffer (fun n => if n = 0 then AttemptSpec.streamThen ["A"] (some (.rateLimited "rl"))
          else AttemptSpec.streamThen ["B", "C"] none) 0 3, none, 5⟩ :=
  (C2_amended ⟨true, [], false, false⟩ 5 "t" "d"
    (fun n => if n = 0 then AttemptSpec.streamThen ["A"] (some (.rateLimited "rl"))
      else AttemptSpec.streamThen ["B", "C"] none) "BC"
    rfl rfl rfl rfl (by decide) (by decide)).2

/-- Claim C3 (counterexample). With a provider that raises `RateLimited` exactly
twice and then succeeds, the stream ends in `Complete` (the transient failures
are recovered), yet `analyze_blocking` raises on the very first `error`-typed
retry-notification chunk, refuting the claim that a recovered transient
failure does not fail the blocking operation. -/
theorem C3_counterexample :
    analyze_blocking ⟨false, [], false, false⟩ 0 "t" "d" .openai
        (fun n => if n < 2 then .failAtCreate (.rateLimited "rl")
          else AttemptSpec.streamThen ["ok"] none)
      = .error "Rate limit reached. Retrying in 1 seconds..."
    ∧ (stream_analysis ⟨false, [], false, false⟩ 0 "t" "d" .openai
        (fun n => if n < 2 then .failAtCreate (.rateLimited "rl")
          else AttemptSpec.streamThen ["ok"] none)).events.getLast?
      = some completeEv :=
  ⟨rfl, by decide⟩

/-- Claim C3 (amended): `analyze_blocking` fails exactly when the streamed event
sequence contains an `error`-typed event of any kind — including non-terminal
retry notifications — and the raised failure carries the **first** such
event's message (default `"Analysis failed"`). Hence a transient provider
failure on an early attempt does fail the blocking operation even when a later
retry recovers. On a cache hit no event is drained and no failure occurs. -/
theorem C3_amended (rs : RedisState) (now : Nat) (t d : String) (b : BackendType)
    (p : Nat → AttemptSpec) (m : String) :
    analyze_blocking rs now t d b p = .error m ↔
      check_cache rs d = none ∧
        firstErrorMessage (stream_analysis rs now t d b p).events = some m := by
  cases hc : check_cache rs d with
  | some entry => simp [analyze_blocking, hc]
  | none =>
    simp only [analyze_blocking, hc, true_and]
    rw [← drainEvents_error_iff _ "" m]
    cases hd : drainEvents (stream_analysis rs now t d b p).events "" with
    | ok buf => simp [hd]
    | error m2 => simp [hd]

/-- Claim C4 (counterexample). With a provider that raises `Timeout` on every
attempt, the last event of the stream is the `ANALYSIS_FAILED` wrapper emitted
by `stream_analysis`'s outer `except` handler, not the `TIMEOUT_EXCEEDED`
event (which is second to last), refuting the claimed terminal event. -/
theorem C4_counterexample :
    (stream_analysis ⟨false, [], false, false⟩ 0 "t" "d" .openai
        (fun _ => .failAtCreate (.timeout "tmo"))).events.getLast?
      = some (mkError "Analysis failed: tmo" "ANALYSIS_FAILED")
    ∧ (mkError "Analysis failed: tmo" "ANALYSIS_FAILED").error_code
        ≠ some "TIMEOUT_EXCEEDED" := by
  decide

/-- Claim C4 (amended): if the provider raises `Timeout` on every attempt and the
cache misses, exactly 3 provider attempts are made, no cache write occurs (the
Redis state is unchanged), and the stream ends with the
`TIMEOUT_EXCEEDED` error event followed by one final `ANALYSIS_FAILED` error
event carrying the third attempt's exception text — so `TIMEOUT_EXCEEDED` is
the second-to-last, not the last, event. -/
theorem C4_amended (rs : RedisState) (now : Nat) (t d : String) (p : Nat → AttemptSpec)
    (hmiss : check_cache rs d = none)
    (htmo : ∀ a, ∃ m, attemptFails (p a) = some (.timeout m)) :
    (stream_analysis rs now t d .openai p).provider_calls = 3
    ∧ (stream_analysis rs now t d .openai p).redis = rs
    ∧ ∃ pre m, attemptFails (p 2) = some (.timeout m)
        ∧ (stream_analysis rs now t d .openai p).events =
            pre ++ [mkError "Request timed out after multiple attempts." "TIMEOUT_EXCEEDED",
              mkError ("Analysis failed: " ++ m) "ANALYSIS_FAILED"] := by
  obtain ⟨m0, h0⟩ := htmo 0
  obtain ⟨m1, h1⟩ := htmo 1
  obtain ⟨m2, h2⟩ := htmo 2
  have s0 := runAttempt_snd_err 0 (p 0) _ h0
  have s1 := runAttempt_snd_err 1 (p 1) _ h1
  have s2 := runAttempt_snd_err 2 (p 2) _ h2
  have e2 : streamLoop p 2 1 4 =
      ⟨(runAttempt 2 (p 2)).1 ++ [Action.emit (finalErrEvent (.timeout m2))], 1,
        .err (.timeout m2)⟩ :=
    streamLoop_err_zero p 2 4 _ s2
  have e1 : streamLoop p 1 2 2 =
      ⟨(runAttempt 1 (p 1)).1 ++
          Action.emit (retryErrEvent (.timeout m1) 2) :: Action.sleep 2 ::
            (streamLoop p 2 1 4).trace,
        1 + (streamLoop p 2 1 4).attempts, (streamLoop p 2 1 4).outcome⟩ :=
    streamLoop_err_succ p 1 0 2 _ s1
  have e0 : streamLoop p 0 3 1 =
      ⟨(runAttempt 0 (p 0)).1 ++
          Action.emit (retryErrEvent (.timeout m0) 1) :: Action.sleep 1 ::
            (streamLoop p 1 2 2).trace,
        1 + (streamLoop p 1 2 2).attempts, (streamLoop p 1 2 2).outcome⟩ :=
    streamLoop_err_succ p 0 1 1 _ s0
  have houtcome : (streamOpenai p).outcome = .err (.timeout m2) := by
    rw [streamOpenai, e0, e1, e2]
  have hatt : (streamOpenai p).attempts = 3 := by
    rw [streamOpenai, e0, e1, e2]
    simp
  have htr : traceEvents (streamOpenai p).trace =
      traceEvents (runAttempt 0 (p 0)).1 ++ retryErrEvent (.timeout m0) 1 ::
        (traceEvents (runAttempt 1 (p 1)).1 ++ retryErrEvent (.timeout m1) 2 ::
          (traceEvents (runAttempt 2 (p 2)).1 ++ [finalErrEvent (.timeout m2)])) := by
    rw [streamOpenai, e0, e1, e2]
    simp
  rw [stream_analysis_miss_openai_err rs now t d p _ hmiss houtcome]
  refine ⟨hatt, rfl, ?_⟩
  refine ⟨initEvent :: (traceEvents (runAttempt 0 (p 0)).1 ++ retryErrEvent (.timeout m0) 1 ::
    (traceEvents (runAttempt 1 (p 1)).1 ++ retryErrEvent (.timeout m1) 2 ::
      traceEvents (runAttempt 2 (p 2)).1)), m2, h2, ?_⟩
  rw [htr]
  simp [finalErrEvent, analysisFailedEvent, errStr]

/-- Claim C4 witness: the amended theorem applied at the always-`Timeout`
provider with an absent cache connection. -/
theorem C4_witness :
    (stream_analysis ⟨false, [], false, false⟩ 0 "t" "d" .openai
        (fun _ => .failAtCreate (.timeout "tmo"))).provider_calls = 3
    ∧ (stream_analysis ⟨false, [], false, false⟩ 0 "t" "d" .openai
        (fun _ => .failAtCreate (.timeout "tmo"))).redis = ⟨false, [], false, false⟩ :=
  ⟨(C4_amended ⟨false, [], false, false⟩ 0 "t" "d" (fun _ => .failAtCreate (.timeout "tmo"))
      rfl (fun _ => ⟨"tmo", rfl⟩)).1,
    (C4_amended ⟨false, [], false, false⟩ 0 "t" "d" (fun _ => .failAtCreate (.timeout "tmo"))
      rfl (fun _ => ⟨"tmo", rfl⟩)).2.1⟩

/-- Claim C5 (confirmed). The retry loop makes at most 3 provider attempts (and
the orchestrator therefore makes at most 3 provider calls per invocation);
the backoff sleeps are the prefix of `[1, 2]` determined by the number of
attempts (delay 1 before the second attempt, 2 before the third — the delay
starts at 1 and doubles after each failed attempt); and when all three
attempts fail, exactly 3 attempts are made, the generator's last action is
emitting the final error event whose code distinguishes the failure class
(`RATE_LIMIT_EXCEEDED`, `TIMEOUT_EXCEEDED`, `API_ERROR_FINAL`), and the
generator re-raises, so no further attempt follows. -/
theorem C5_retry_policy (p : Nat → AttemptSpec) (rs : RedisState) (now : Nat)
    (t d : String) (b : BackendType) :
    (streamOpenai p).attempts ≤ 3
    ∧ (stream_analysis rs now t d b p).provider_calls ≤ 3
    ∧ traceSleeps (streamOpenai p).trace = List.take ((streamOpenai p).attempts - 1) [1, 2]
    ∧ ∀ e0 e1 e2, attemptFails (p 0) = some e0 → attemptFails (p 1) = some e1 →
        attemptFails (p 2) = some e2 →
        (streamOpenai p).attempts = 3
        ∧ (streamOpenai p).outcome = .err e2
        ∧ (streamOpenai p).trace.getLast? = some (.emit (finalErrEvent e2))
        ∧ (finalErrEvent e2).error_code = some (finalCode e2) := by
  refine ⟨streamLoop_attempts_le p 3 0 1, ?_, streamLoop_sleeps p 3 0 1, ?_⟩
  · cases hc : check_cache rs d with
    | some entry =>
      rw [stream_analysis_hit rs now t d b p entry hc]
      show 0 ≤ 3
      omega
    | none =>
      cases b with
      | ollama =>
        rw [stream_analysis_miss_ollama rs now t d p hc]
        show 0 ≤ 3
        omega
      | openai =>
        cases hout : (streamOpenai p).outcome with
        | ok buf =>
          rw [stream_analysis_miss_openai_ok rs now t d p buf hc hout]
          exact streamLoop_attempts_le p 3 0 1
        | err e =>
          rw [stream_analysis_miss_openai_err rs now t d p e hc hout]
          exact streamLoop_attempts_le p 3 0 1
  · intro e0 e1 e2 h0 h1 h2
    have s0 := runAttempt_snd_err 0 (p 0) _ h0
    have s1 := runAttempt_snd_err 1 (p 1) _ h1
    have s2 := runAttempt_snd_err 2 (p 2) _ h2
    have E2 : streamLoop p 2 1 4 =
        ⟨(runAttempt 2 (p 2)).1 ++ [Action.emit (finalErrEvent e2)], 1, .err e2⟩ :=
      streamLoop_err_zero p 2 4 _ s2
    have E1 : streamLoop p 1 2 2 =
        ⟨(runAttempt 1 (p 1)).1 ++
            Action.emit (retryErrEvent e1 2) :: Action.sleep 2 :: (streamLoop p 2 1 4).trace,
          1 + (streamLoop p 2 1 4).attempts, (streamLoop p 2 1 4).outcome⟩ :=
      streamLoop_err_succ p 1 0 2 _ s1
    have E0 : streamLoop p 0 3 1 =
        ⟨(runAttempt 0 (p 0)).1 ++
            Action.emit (retryErrEvent e0 1) :: Action.sleep 1 :: (streamLoop p 1 2 2).trace,
          1 + (streamLoop p 1 2 2).attempts, (streamLoop p 1 2 2).outcome⟩ :=
      streamLoop_err_succ p 0 1 1 _ s0
    refine ⟨?_, ?_, ?_, finalErr_code e2⟩
    · rw [streamOpenai, E0, E1, E2]
      simp
    · rw [streamOpenai, E0, E1, E2]
    · rw [streamOpenai, E0, E1, E2]
      show ((runAttempt 0 (p 0)).1 ++ ([Action.emit (retryErrEvent e0 1), Action.sleep 1] ++
          ((runAttempt 1 (p 1)).1 ++ ([Action.emit (retryErrEvent e1 2), Action.sleep 2] ++
            ((runAttempt 2 (p 2)).1 ++ [Action.emit (finalErrEvent e2)]))))).getLast?
        = some (Action.emit (finalErrEvent e2))
      simp only [← List.append_assoc]
      rw [List.getLast?_concat]

/-- Claim C5 witness: the retry-exhaustion clause of the policy theorem applied
at the provider that always raises `RateLimited`. -/
theorem C5_witness :
    (streamOpenai fun _ => AttemptSpec.failAtCreate (.rateLimited "rl")).attempts = 3
    ∧ (streamOpenai fun _ => AttemptSpec.failAtCreate (.rateLimited "rl")).outcome
        = .err (.rateLimited "rl")
    ∧ (finalErrEvent (.rateLimited "rl")).error_code = some "RATE_LIMIT_EXCEEDED" := by
  have h := (C5_retry_policy (fun _ => AttemptSpec.failAtCreate (.rateLimited "rl"))
      ⟨false, [], false, false⟩ 0 "t" "d" .openai).2.2.2
      (.rateLimited "rl") (.rateLimited "rl") (.rateLimited "rl") rfl rfl rfl
  exact ⟨h.1, h.2.1, h.2.2.2⟩

/-- Claim C6 (counterexample). With a provider that raises `RateLimited` exactly
twice then succeeds, the retry announcements — the events emitted immediately
before each backoff sleep — are `error`-typed, not `status`-typed, refuting
the claim that the event announcing a retry is a Status event. -/
theorem C6_counterexample :
    ¬ (∀ e ∈ retryAnnouncements (streamOpenai fun n =>
          if n < 2 then AttemptSpec.failAtCreate (.rateLimited "rl")
          else AttemptSpec.streamThen ["frag"] none).trace,
        e.type = .status) := by
  decide

/-- Claim C6 (amended): every retry announcement (the event emitted immediately
before a backoff sleep) is an `error`-typed event whose code is one of the
retryable codes `RATE_LIMIT`, `TIMEOUT`, `API_ERROR`; and for a provider that
raises `RateLimited` exactly twice then succeeds, exactly 2 such announcements
are emitted — `error` events announcing delays 1 then 2 — the sleeps are
1 then 2 time-units, and exactly 3 attempts are made. -/
theorem C6_amended (p : Nat → AttemptSpec) :
    (∀ e ∈ retryAnnouncements (streamOpenai p).trace,
        e.type = .error ∧ (e.error_code = some "RATE_LIMIT" ∨ e.error_code = some "TIMEOUT"
          ∨ e.error_code = some "API_ERROR"))
    ∧ ∀ m1 m2, attemptFails (p 0) = some (.rateLimited m1) →
        attemptFails (p 1) = some (.rateLimited m2) → attemptFails (p 2) = none →
        retryAnnouncements (streamOpenai p).trace =
          [retryErrEvent (.rateLimited m1) 1, retryErrEvent (.rateLimited m2) 2]
        ∧ traceSleeps (streamOpenai p).trace = [1, 2]
        ∧ (streamOpenai p).attempts = 3 := by
  have hra : retryAnnouncements (streamOpenai p).trace = loopAnnouncements p 0 3 1 :=
    streamLoop_ra p 3 0 1
  constructor
  · intro e he
    rw [hra] at he
    obtain ⟨er, dd, rfl⟩ := loopAnnouncements_mem p 3 0 1 e he
    exact ⟨retryErr_type er dd, retryErr_code er dd⟩
  · intro m1 m2 h0 h1 h2
    have hl1 : loopAnnouncements p 0 3 1 =
        retryErrEvent (.rateLimited m1) 1 :: loopAnnouncements p 1 2 2 :=
      loopAnnouncements_some_succ p 0 1 1 _ h0
    have hl2 : loopAnnouncements p 1 2 2 =
        retryErrEvent (.rateLimited m2) 2 :: loopAnnouncements p 2 1 4 :=
      loopAnnouncements_some_succ p 1 0 2 _ h1
    have hl3 : loopAnnouncements p 2 1 4 = [] := loopAnnouncements_none p 2 0 4 h2
    have E2 : streamLoop p 2 1 4 =
        ⟨(runAttempt 2 (p 2)).1, 1, .ok (deliveredBuffer (p 2))⟩ :=
      streamLoop_ok_eq p 2 0 4 _ (runAttempt_snd_ok 2 (p 2) h2)
    have E1 : streamLoop p 1 2 2 =
        ⟨(runAttempt 1 (p 1)).1 ++
            Action.emit (retryErrEvent (.rateLimited m2) 2) :: Action.sleep 2 ::
              (streamLoop p 2 1 4).trace,
          1 + (streamLoop p 2 1 4).attempts, (streamLoop p 2 1 4).outcome⟩ :=
      streamLoop_err_succ p 1 0 2 _ (runAttempt_snd_err 1 (p 1) _ h1)
    have E0 : streamLoop p 0 3 1 =
        ⟨(runAttempt 0 (p 0)).1 ++
            Action.emit (retryErrEvent (.rateLimited m1) 1) :: Action.sleep 1 ::
              (streamLoop p 1 2 2).trace,
          1 + (streamLoop p 1 2 2).attempts, (streamLoop p 1 2 2).outcome⟩ :=
      streamLoop_err_succ p 0 1 1 _ (runAttempt_snd_err 0 (p 0) _ h0)
    have hatt : (streamOpenai p).attempts = 3 := by
      rw [streamOpenai, E0, E1, E2]
      simp
    have hsl : traceSleeps (streamOpenai p).trace =
        List.take ((streamOpenai p).attempts - 1) (delaysFrom 1 2) :=
      streamLoop_sleeps p 3 0 1
    refine ⟨?_, ?_, hatt⟩
    · rw [hra, hl1, hl2, hl3]
    · rw [hsl, hatt]
      decide

/-- Claim C6 witness: the rate-limited-twice scenario of the amended theorem at a
concrete provider. -/
theorem C6_witness :
    retryAnnouncements (streamOpenai fun n =>
        if n < 2 then AttemptSpec.failAtCreate (.rateLimited "rl")
        else AttemptSpec.streamThen ["frag"] none).trace =
      [retryErrEvent (.rateLimited "rl") 1, retryErrEvent (.rateLimited "rl") 2]
    ∧ traceSleeps (streamOpenai fun n =>
        if n < 2 then AttemptSpec.failAtCreate (.rateLimited "rl")
        else AttemptSpec.streamThen ["frag"] none).trace = [1, 2] := by
  have h := (C6_amended fun n =>
      if n < 2 then AttemptSpec.failAtCreate (.rateLimited "rl")
      else AttemptSpec.streamThen ["frag"] none).2 "rl" "rl" rfl rfl rfl
  exact ⟨h.1, h.2.1⟩

/-- Claim C7 (confirmed). After an analysis text has been cached for description
`d` (a successful `cache_result` write), re-invoking `stream_analysis` with
the same `d` — under any title, any backend and any provider behaviour, and at
any later time — makes zero provider calls and emits exactly the four events
`Status(progress 0)`, `Status(progress 50)`, `Delta(the full cached text)`,
`Complete(progress 100)`, in that order, leaving the cache unchanged. -/
theorem C7_cache_roundtrip (rs : RedisState) (now now2 : Nat) (t2 d text : String)
    (tok : Option Nat) (b2 : BackendType) (p2 : Nat → AttemptSpec)
    (hconn : rs.connected = true) (hget : rs.getFails = false) (hput : rs.putFails = false) :
    stream_analysis (cache_result rs d text tok now) now2 t2 d b2 p2 =
      ⟨[initEvent, cacheHitEvent, mkDelta text, completeEv],
        cache_result rs d text tok now, 0⟩ := by
  have hcr := cache_result_normal rs d text tok now hconn hput
  have hhit : check_cache (cache_result rs d text tok now) d = some ⟨text, tok, now⟩ := by
    rw [hcr]
    simp [check_cache, hconn, hget, storeGet_storePut_same]
  rw [stream_analysis_hit _ now2 t2 d b2 p2 _ hhit]

/-- Claim C7 witness: the round trip at a concrete connected cache, different
title and backend on the second invocation. -/
theorem C7_witness :
    stream_analysis (cache_result ⟨true, [], false, false⟩ "d" "text" none 5) 6 "x" "d"
        .ollama (fun _ => .failAtCreate (.timeout "t"))
      = ⟨[initEvent, cacheHitEvent, mkDelta "text", completeEv],
          cache_result ⟨true, [], false, false⟩ "d" "text" none 5, 0⟩ :=
  C7_cache_roundtrip ⟨true, [], false, false⟩ 5 6 "x" "d" "text" none .ollama
    (fun _ => .failAtCreate (.timeout "t")) rfl rfl rfl

/-- On a cache miss, the emitted events and the number of provider calls do
not depend on the cache state, the time, or the title at all. -/
lemma stream_analysis_miss_congr (rs1 rs2 : RedisState) (now1 now2 : Nat)
    (t1 t2 d1 d2 : String) (b : BackendType) (p : Nat → AttemptSpec)
    (h1 : check_cache rs1 d1 = none) (h2 : check_cache rs2 d2 = none) :
    (stream_analysis rs1 now1 t1 d1 b p).events = (stream_analysis rs2 now2 t2 d2 b p).events
    ∧ (stream_analysis rs1 now1 t1 d1 b p).provider_calls
        = (stream_analysis rs2 now2 t2 d2 b p).provider_calls := by
  cases b with
  | ollama =>
    rw [stream_analysis_miss_ollama rs1 now1 t1 d1 p h1,
      stream_analysis_miss_ollama rs2 now2 t2 d2 p h2]
    exact ⟨rfl, rfl⟩
  | openai =>
    cases hout : (streamOpenai p).outcome with
    | ok buf =>
      rw [stream_analysis_miss_openai_ok rs1 now1 t1 d1 p buf h1 hout,
        stream_analysis_miss_openai_ok rs2 now2 t2 d2 p buf h2 hout]
      exact ⟨rfl, rfl⟩
    | err e =>
      rw [stream_analysis_miss_openai_err rs1 now1 t1 d1 p e h1 hout,
        stream_analysis_miss_openai_err rs2 now2 t2 d2 p e h2 hout]
      exact ⟨rfl, rfl⟩

/-- If every possible cache write leaves the Redis state unchanged, so does a
whole invocation. -/
lemma stream_analysis_no_write (rs : RedisState) (now : Nat) (t d : String)
    (b : BackendType) (p : Nat → AttemptSpec)
    (hw : ∀ an tok, cache_result rs d an tok now = rs) :
    (stream_analysis rs now t d b p).redis = rs := by
  cases hc : check_cache rs d with
  | some entry => rw [stream_analysis_hit rs now t d b p entry hc]
  | none =>
    cases b with
    | ollama => rw [stream_analysis_miss_ollama rs now t d p hc]
    | openai =>
      cases hout : (streamOpenai p).outcome with
      | ok buf =>
        rw [stream_analysis_miss_openai_ok rs now t d p buf hc hout]
        show (if _ = "" then rs else cache_result rs d _ none now) = rs
        rw [hw]
        simp
      | err e => rw [stream_analysis_miss_openai_err rs now t d p e hc hout]

/-- Claim C9 (confirmed). Cache faults are swallowed: a failing `GET` yields
`none` exactly like a miss, and the whole stream (events and provider calls)
coincides with the stream of a trivially missing cache; a failing `SETEX`
leaves the Redis state untouched and does not change the emitted events
relative to a succeeding write; an absent connection likewise reads as a miss
and writes nothing. `stream_analysis` itself is a total function — the
streaming invocation never fails. -/
theorem C9_cache_failopen (c : Bool) (store : Store) (g pf : Bool) (now : Nat)
    (t d : String) (b : BackendType) (p : Nat → AttemptSpec) :
    check_cache ⟨c, store, true, pf⟩ d = none
    ∧ (stream_analysis ⟨c, store, true, pf⟩ now t d b p).events
        = (stream_analysis ⟨c, [], false, pf⟩ now t d b p).events
    ∧ (stream_analysis ⟨c, store, true, pf⟩ now t d b p).provider_calls
        = (stream_analysis ⟨c, [], false, pf⟩ now t d b p).provider_calls
    ∧ (stream_analysis ⟨c, store, g, true⟩ now t d b p).redis = ⟨c, store, g, true⟩
    ∧ (stream_analysis ⟨c, store, g, true⟩ now t d b p).events
        = (stream_analysis ⟨c, store, g, false⟩ now t d b p).events
    ∧ check_cache ⟨false, store, g, pf⟩ d = none
    ∧ (stream_analysis ⟨false, store, g, pf⟩ now t d b p).redis = ⟨false, store, g, pf⟩ := by
  have h1 : check_cache ⟨c, store, true, pf⟩ d = none := check_cache_getFails _ d rfl
  have h2 : check_cache ⟨c, [], false, pf⟩ d = none := by cases c <;> rfl
  have hcongr := stream_analysis_miss_congr ⟨c, store, true, pf⟩ ⟨c, [], false, pf⟩
    now now t t d d b p h1 h2
  refine ⟨h1, hcongr.1, hcongr.2, ?_, ?_, check_cache_not_connected _ d rfl, ?_⟩
  · exact stream_analysis_no_write _ now t d b p
      (fun an tok => cache_result_putFails _ _ _ _ _ rfl)
  · have hpeq : check_cache ⟨c, store, g, true⟩ d = check_cache ⟨c, store, g, false⟩ d := rfl
    cases hc : check_cache ⟨c, store, g, false⟩ d with
    | some entry =>
      rw [stream_analysis_hit _ now t d b p entry (hpeq.trans hc),
        stream_analysis_hit _ now t d b p entry hc]
    | none =>
      exact (stream_analysis_miss_congr ⟨c, store, g, true⟩ ⟨c, store, g, false⟩
        now now t t d d b p (hpeq.trans hc) hc).1
  · exact stream_analysis_no_write _ now t d b p
      (fun an tok => cache_result_not_connected _ _ _ _ _ rfl)

/-- Claim C10 (confirmed). The streaming path writes cache entries with
`tokens_used = none` only (the call site passes no token count), so if every
entry already in the store has `tokens_used = none`, the same holds after any
invocation; and a successful `analyze_blocking` result — whether a cache hit
replay or a freshly drained stream, whose local `tokens_used` is never
assigned — always carries `tokens_used = none`. -/
theorem C10_tokens_none (rs : RedisState) (now : Nat) (t d : String) (b : BackendType)
    (p : Nat → AttemptSpec)
    (hinv : ∀ k e2, storeGet rs.store k = some e2 → e2.tokens_used = none) :
    (∀ k e2, storeGet (stream_analysis rs now t d b p).redis.store k = some e2 →
        e2.tokens_used = none)
    ∧ ∀ r2, analyze_blocking rs now t d b p = .ok r2 → r2.tokens_used = none := by
  constructor
  · intro k e2 hk
    cases hc : check_cache rs d with
    | some entry =>
      rw [stream_analysis_hit rs now t d b p entry hc] at hk
      exact hinv k e2 hk
    | none =>
      cases b with
      | ollama =>
        rw [stream_analysis_miss_ollama rs now t d p hc] at hk
        exact hinv k e2 hk
      | openai =>
        cases hout : (streamOpenai p).outcome with
        | err e =>
          rw [stream_analysis_miss_openai_err rs now t d p e hc hout] at hk
          exact hinv k e2 hk
        | ok buf =>
          rw [stream_analysis_miss_openai_ok rs now t d p buf hc hout] at hk
          by_cases hb : concatDeltas (traceEvents (streamOpenai p).trace) "" = ""
          · rw [if_pos hb] at hk
            exact hinv k e2 hk
          · rw [if_neg hb] at hk
            cases hcon : rs.connected with
            | false =>
              rw [cache_result_not_connected _ _ _ _ _ hcon] at hk
              exact hinv k e2 hk
            | true =>
              cases hpf : rs.putFails with
              | true =>
                rw [cache_result_putFails _ _ _ _ _ hpf] at hk
                exact hinv k e2 hk
              | false =>
                rw [cache_result_normal rs d _ none now hcon hpf] at hk
                by_cases hkk : generate_cache_key d = k
                · rw [← hkk, storeGet_storePut_same] at hk
                  cases hk
                  rfl
                · rw [storeGet_storePut_other _ _ _ _ hkk] at hk
                  exact hinv k e2 hk
  · intro r2 hr
    cases hc : check_cache rs d with
    | some entry =>
      have hsg : storeGet rs.store (generate_cache_key d) = some entry := by
        cases hcon : rs.connected with
        | false =>
          rw [check_cache_not_connected rs d hcon] at hc
          exact Option.noConfusion hc
        | true =>
          cases hgf : rs.getFails with
          | true =>
            rw [check_cache_getFails rs d hgf] at hc
            exact Option.noConfusion hc
          | false =>
            rw [check_cache_normal rs d hcon hgf] at hc
            exact hc
      simp only [analyze_blocking, hc, Except.ok.injEq] at hr
      rw [← hr]
      exact hinv _ entry hsg
    | none =>
      simp only [analyze_blocking, hc] at hr
      cases hd : drainEvents (stream_analysis rs now t d b p).events "" with
      | ok buf =>
        simp only [hd, Except.ok.injEq] at hr
        rw [← hr]
      | error m =>
        simp only [hd] at hr
        exact Except.noConfusion hr

set_option maxRecDepth 400000 in
/-- Claim C10 witness: the invariant theorem applied at an empty connected cache
and a provider that streams one fragment and completes; both the freshly
written cache entry and the blocking result carry `tokens_used = none`. -/
theorem C10_witness :
    (⟨"frag", none, 0⟩ : CacheEntry).tokens_used = none
    ∧ (⟨"frag", none, false⟩ : BlockingResult).tokens_used = none :=
  ⟨(C10_tokens_none ⟨true, [], false, false⟩ 0 "t" "d" .openai
        (fun _ => AttemptSpec.streamThen ["frag"] none)
        (fun k e2 h => by simp [storeGet] at h)).1
      (generate_cache_key "d") ⟨"frag", none, 0⟩ (by decide),
    (C10_tokens_none ⟨true, [], false, false⟩ 0 "t" "d" .openai
        (fun _ => AttemptSpec.streamThen ["frag"] none)
        (fun k e2 h => by simp [storeGet] at h)).2
      ⟨"frag", none, false⟩ rfl⟩

end CodeForge
